import Mathlib

/-!
Verification development for the meeting-minutes management application
(`app.py`).  The spreadsheet gateway, the attendee label/JSON codec, the
save-step flow of the input tab, the edit form, the record loader and the
draft composer are embedded as executable Lean definitions translated from
the source; rows of the remote sheet are lists of cell strings, and the
sheet itself is the list of its rows (row 1 being the header row, as seen
by `gspread`'s `find`/`delete_rows`/`update`).
-/

/-! ### Python string primitives -/

/-- One step of Python `str.split(sep)` on character lists, with explicit
fuel.  The fuel is always instantiated with the length of the scanned list,
which suffices because every step consumes at least one character; the fuel
presentation keeps the function structurally recursive so that it evaluates
inside the kernel. -/
def pySplitAux (sep : List Char) : Nat → List Char → List (List Char)
  | _, [] => [[]]
  | 0, s => [s]
  | fuel+1, c :: cs =>
    if sep ≠ [] ∧ sep.isPrefixOf (c :: cs) then
      [] :: pySplitAux sep fuel (cs.drop (sep.length - 1))
    else
      match pySplitAux sep fuel cs with
      | [] => [[c]]
      | h :: t => (c :: h) :: t

/-- Python `s.split(sep)` for a nonempty separator: leftmost,
non-overlapping occurrences of `sep` cut the list. -/
def pySplit (sep s : List Char) : List (List Char) := pySplitAux sep s.length s

/-- Python `str.strip()`: drop whitespace from both ends. -/
def pyStrip (s : String) : String :=
  String.mk (((s.data.dropWhile Char.isWhitespace).reverse.dropWhile Char.isWhitespace).reverse)

/-- Python `s.replace(old, new)` for a nonempty `old`: split on `old` and
rejoin with `new`. -/
def py_replace (s old new : String) : String :=
  String.intercalate new ((pySplit old.data s.data).map String.mk)

/-- Whether `sep` occurs as a contiguous run inside `s`; the scan mirrors
the occurrence search of Python `str.split`. -/
def containsSeq (sep : List Char) : List Char → Bool
  | [] => sep.isPrefixOf []
  | c :: cs => sep.isPrefixOf (c :: cs) || containsSeq sep cs

theorem pySplitAux_fuel (sep : List Char) :
    ∀ (f₁ f₂ : Nat) (s : List Char), s.length ≤ f₁ → s.length ≤ f₂ →
      pySplitAux sep f₁ s = pySplitAux sep f₂ s := by
  intro f₁
  induction f₁ with
  | zero =>
    intro f₂ s h₁ _
    have hs : s = [] := List.eq_nil_of_length_eq_zero (Nat.le_zero.mp h₁)
    subst hs
    simp [pySplitAux]
  | succ g ih =>
    intro f₂ s h₁ h₂
    cases s with
    | nil => simp [pySplitAux]
    | cons c cs =>
      cases f₂ with
      | zero => simp at h₂
      | succ h =>
        have hg : cs.length ≤ g := by simp at h₁; omega
        have hh : cs.length ≤ h := by simp at h₂; omega
        simp only [pySplitAux]
        by_cases hp : sep ≠ [] ∧ sep.isPrefixOf (c :: cs) = true
        · rw [if_pos hp, if_pos hp]
          have hd : (cs.drop (sep.length - 1)).length ≤ cs.length := by
            simp [List.length_drop]
          rw [ih h (cs.drop (sep.length - 1)) (le_trans hd hg) (le_trans hd hh)]
        · rw [if_neg hp, if_neg hp, ih h cs hg hh]

theorem pySplit_nil (sep : List Char) : pySplit sep [] = [[]] := rfl

theorem pySplit_pos (sep : List Char) (c : Char) (cs : List Char)
    (hsep : sep ≠ []) (hp : sep.isPrefixOf (c :: cs) = true) :
    pySplit sep (c :: cs) = [] :: pySplit sep (cs.drop (sep.length - 1)) := by
  show pySplitAux sep (c :: cs).length (c :: cs) = _
  simp only [List.length_cons, pySplitAux]
  rw [if_pos ⟨hsep, hp⟩]
  congr 1
  exact pySplitAux_fuel sep cs.length _ _
    (le_trans (by simp [List.length_drop]) (le_refl _)) (le_refl _)

theorem pySplit_neg (sep : List Char) (c : Char) (cs : List Char)
    (hp : ¬ (sep ≠ [] ∧ sep.isPrefixOf (c :: cs) = true)) :
    pySplit sep (c :: cs) = (match pySplit sep cs with
      | [] => [[c]]
      | h :: t => (c :: h) :: t) := by
  show pySplitAux sep (c :: cs).length (c :: cs) = _
  simp only [List.length_cons, pySplitAux]
  rw [if_neg hp]
  rfl

theorem containsSeq_cons_false {sep : List Char} {c : Char} {cs : List Char}
    (h : containsSeq sep (c :: cs) = false) :
    sep.isPrefixOf (c :: cs) = false ∧ containsSeq sep cs = false := by
  simpa [containsSeq] using h

theorem containsSeq_suffix {sep : List Char} :
    ∀ {u t : List Char}, containsSeq sep (u ++ t) = false → containsSeq sep t = false := by
  intro u
  induction u with
  | nil => intro t h; exact h
  | cons c u ih => intro t h; exact ih (containsSeq_cons_false h).2

theorem isPrefixOf_self_append (l t : List Char) : l.isPrefixOf (l ++ t) = true := by
  induction l with
  | nil => simp
  | cons c cs ih => simp [List.isPrefixOf_cons₂, ih]

theorem isPrefixOf_pair {a b x : Char} {l : List Char} :
    List.isPrefixOf [a, b] (x :: l)
      = ((a == x) && (match l with | [] => false | y :: _ => (b == y))) := by
  cases l <;> simp [List.isPrefixOf_cons₂, List.isPrefixOf]

theorem clean_single {x : Char} {xs ys : List Char} (hx : containsSeq [x] xs = false) :
    ∀ t u, u ++ t = xs → t ≠ [] → List.isPrefixOf [x] (t ++ ([x] ++ ys)) = false := by
  intro t u hu ht
  cases t with
  | nil => exact absurd rfl ht
  | cons c t' =>
    have hsub : containsSeq [x] (c :: t') = false := containsSeq_suffix (hu ▸ hx)
    have hone : List.isPrefixOf [x] (c :: t') = false := (containsSeq_cons_false hsub).1
    simp only [List.isPrefixOf_cons₂, List.isPrefixOf_nil_left, Bool.and_true] at hone
    simp [List.isPrefixOf_cons₂, hone]

theorem clean_double {a b : Char} {xs ys : List Char} (hab : a ≠ b)
    (hx : containsSeq [a, b] xs = false) :
    ∀ t u, u ++ t = xs → t ≠ [] → List.isPrefixOf [a, b] (t ++ ([a, b] ++ ys)) = false := by
  intro t u hu ht
  match t with
  | [] => exact absurd rfl ht
  | [c] =>
    show List.isPrefixOf [a, b] (c :: (a :: b :: ys)) = false
    rw [isPrefixOf_pair]
    simp [Ne.symm hab]
  | c :: c' :: t' =>
    have hsub : containsSeq [a, b] (c :: c' :: t') = false := containsSeq_suffix (hu ▸ hx)
    have hone : List.isPrefixOf [a, b] (c :: c' :: t') = false := (containsSeq_cons_false hsub).1
    rw [isPrefixOf_pair] at hone
    show List.isPrefixOf [a, b] (c :: (c' :: (t' ++ ([a, b] ++ ys)))) = false
    rw [isPrefixOf_pair]
    simpa using hone

theorem containsSeq_append_double {a b c : Char} {xs ys : List Char}
    (hxs : containsSeq [a, b] xs = false) (hys : containsSeq [a, b] ys = false)
    (hac : a ≠ c) (hbc : b ≠ c) :
    containsSeq [a, b] (xs ++ c :: ys) = false := by
  induction xs with
  | nil =>
    simp only [List.nil_append, containsSeq, hys, Bool.or_false]
    rw [isPrefixOf_pair]
    simp [hac]
  | cons x xs' ih =>
    obtain ⟨hp, hcs⟩ := containsSeq_cons_false hxs
    simp only [List.cons_append, containsSeq, List.append_eq]
    rw [ih hcs, Bool.or_false]
    cases xs' with
    | nil =>
      rw [isPrefixOf_pair]
      simp only [List.nil_append]
      simp [hbc]
    | cons x' t =>
      rw [isPrefixOf_pair] at hp ⊢
      simpa using hp

theorem containsSeq_append_last {a b c : Char} {xs : List Char}
    (hxs : containsSeq [a, b] xs = false) (hbc : b ≠ c) :
    containsSeq [a, b] (xs ++ [c]) = false := by
  induction xs with
  | nil =>
    simp only [List.nil_append, containsSeq, Bool.or_false]
    rw [isPrefixOf_pair]
    simp
  | cons x xs' ih =>
    obtain ⟨hp, hcs⟩ := containsSeq_cons_false hxs
    simp only [List.cons_append, containsSeq, List.append_eq]
    rw [ih hcs, Bool.or_false]
    cases xs' with
    | nil =>
      rw [isPrefixOf_pair]
      simp [hbc]
    | cons x' t =>
      rw [isPrefixOf_pair] at hp ⊢
      simpa using hp

theorem pySplit_clean_append (sep xs ys : List Char) (hsep : sep ≠ [])
    (H : ∀ t u, u ++ t = xs → t ≠ [] → sep.isPrefixOf (t ++ (sep ++ ys)) = false) :
    pySplit sep (xs ++ (sep ++ ys)) = xs :: pySplit sep ys := by
  induction xs with
  | nil =>
    match sep, hsep with
    | a :: s', _ =>
      rw [List.nil_append, List.cons_append]
      rw [pySplit_pos (a :: s') a (s' ++ ys) (by simp) (isPrefixOf_self_append (a :: s') ys)]
      have hlen : (a :: s').length - 1 = s'.length := by simp
      rw [hlen, List.drop_left]
  | cons x xs' ih =>
    have hx : sep.isPrefixOf ((x :: xs') ++ (sep ++ ys)) = false :=
      H (x :: xs') [] rfl (by simp)
    rw [List.cons_append]
    rw [pySplit_neg sep x (xs' ++ (sep ++ ys))
      (by intro hc; rw [show x :: (xs' ++ (sep ++ ys)) = (x :: xs') ++ (sep ++ ys) from rfl, hx] at hc; exact absurd hc.2 (by simp))]
    rw [ih (fun t u hu ht => H t (x :: u) (by rw [← hu]; rfl) ht)]

theorem pySplit_no_occ (sep xs : List Char)
    (hx : containsSeq sep xs = false) : pySplit sep xs = [xs] := by
  induction xs with
  | nil => rfl
  | cons c cs ih =>
    obtain ⟨h1, h2⟩ := containsSeq_cons_false hx
    rw [pySplit_neg sep c cs (by intro hc; rw [h1] at hc; exact absurd hc.2 (by simp))]
    rw [ih h2]

/-! ### Attendee codec -/

/-- An attendee record, the `{"이름": …, "학과": …, "직급": …}` structure the
application builds for each meeting participant (name, department, rank). -/
structure Attendee where
  name : String
  dept : String
  rank : String
deriving DecidableEq, Repr

/-- The delimiter `" ("` that the save handlers split selector labels on. -/
def spaceParen : List Char := [' ', '(']

/-- Parse one selector label, modelling
`nm, info = it.split(' (')[0], it.split(' (')[1][:-1]` followed by
`dp, rk = info.split('/')` inside its `try`/`except`: a missing part
(`IndexError`) or a `'/'`-split of size other than two (`ValueError`)
yields `none` and the label is skipped. -/
def parse_label (it : String) : Option Attendee :=
  match pySplit spaceParen it.data with
  | p0 :: p1 :: _ =>
    match pySplit ['/'] p1.dropLast with
    | [dp, rk] => some ⟨String.mk p0, String.mk dp, String.mk rk⟩
    | _ => none
  | _ => none

/-- The per-item parse loop over a multiselect value; malformed labels are
skipped (`except: pass`). -/
def parse_labels (labels : List String) : List Attendee := labels.filterMap parse_label

/-- The display-text entry `f"{nm}({dp})"` appended alongside each attendee. -/
def att_txt_entry (a : Attendee) : String := a.name ++ "(" ++ a.dept ++ ")"

/-- The parallel `att_s`/`att_t` (structured list, text list) pair built by
both save handlers: parsed selector labels first, then the optional manual
attendee when the `포함` checkbox is set and the manual name is nonempty
(Python truthiness of `mn`). -/
def build_attendees (sel : List String) (mc : Bool) (mn md mr : String) :
    List Attendee × List String :=
  let s := sel.filterMap parse_label
  let t := sel.filterMap (fun it => (parse_label it).map att_txt_entry)
  if mc ∧ mn ≠ "" then (s ++ [⟨mn, md, mr⟩], t ++ [att_txt_entry ⟨mn, md, mr⟩])
  else (s, t)

/-- The selector label `f"{row['이름']} ({row['학과']}/{row['직급']})"` built
from the faculty roster. -/
def mk_label (a : Attendee) : String := a.name ++ " (" ++ a.dept ++ "/" ++ a.rank ++ ")"

/-- Well-formedness of an attendee for the label format: the `" ("`
delimiter occurs in no field, and `'/'` occurs in neither department nor
rank. -/
def wf_attendee (a : Attendee) : Bool :=
  !containsSeq spaceParen a.name.data && !containsSeq spaceParen a.dept.data &&
  !containsSeq spaceParen a.rank.data && !containsSeq ['/'] a.dept.data &&
  !containsSeq ['/'] a.rank.data

theorem data_append (s t : String) : (s ++ t).data = s.data ++ t.data := rfl

theorem parse_label_mk_label (a : Attendee) (h : wf_attendee a = true) :
    parse_label (mk_label a) = some a := by
  have h' := h
  simp only [wf_attendee, Bool.and_eq_true, Bool.not_eq_true'] at h'
  obtain ⟨⟨⟨⟨h1, h2⟩, h3⟩, h4⟩, h5⟩ := h'
  have hdata : (mk_label a).data
      = a.name.data ++ (spaceParen ++ (a.dept.data ++ ('/' :: (a.rank.data ++ [')'])))) := by
    simp only [mk_label, data_append, spaceParen]
    simp [List.append_assoc]
  have htail : containsSeq spaceParen (a.dept.data ++ ('/' :: (a.rank.data ++ [')']))) = false := by
    show containsSeq [' ', '('] _ = false
    exact containsSeq_append_double h2
      (containsSeq_append_last h3 (by decide)) (by decide) (by decide)
  have hsplit1 : pySplit spaceParen (mk_label a).data
      = a.name.data :: [a.dept.data ++ ('/' :: (a.rank.data ++ [')']))] := by
    rw [hdata, pySplit_clean_append spaceParen _ _ (by decide)
      (clean_double (by decide) h1)]
    rw [pySplit_no_occ _ _ htail]
  have hdrop : (a.dept.data ++ ('/' :: (a.rank.data ++ [')']))).dropLast
      = a.dept.data ++ ('/' :: a.rank.data) := by
    rw [show a.dept.data ++ ('/' :: (a.rank.data ++ [')']))
        = (a.dept.data ++ ('/' :: a.rank.data)) ++ [')'] by simp]
    exact List.dropLast_concat
  have hsplit2 : pySplit ['/'] (a.dept.data ++ ('/' :: a.rank.data))
      = [a.dept.data, a.rank.data] := by
    rw [show a.dept.data ++ ('/' :: a.rank.data)
        = a.dept.data ++ (['/'] ++ a.rank.data) from rfl]
    rw [pySplit_clean_append ['/'] _ _ (by decide) (clean_single h4)]
    rw [pySplit_no_occ _ _ h5]
  unfold parse_label
  rw [hsplit1]
  simp only []
  rw [hdrop, hsplit2]

/-! ### JSON model -/

/-- JSON values of the shapes this application stores (strings, arrays,
objects).  Python's `json.dumps` serializes these values to text and
`json.loads` parses that text back to an equal value; the stored
`참석자_JSON` column is modelled through this value type, with
`jsonDumps` below producing the exact stored text. -/
inductive Json where
  | str : String → Json
  | arr : List Json → Json
  | obj : List (String × Json) → Json

/-- Hexadecimal digit for `\uXXXX` control-character escapes. -/
def hexDigit (n : Nat) : Char :=
  if n < 10 then Char.ofNat ('0'.toNat + n) else Char.ofNat ('a'.toNat + n - 10)

/-- JSON string escaping as `json.dumps(…, ensure_ascii=False)` performs
it: quote, backslash and control characters escaped, all other characters
kept verbatim. -/
def json_escape_char (c : Char) : List Char :=
  if c = '"' then ['\\', '"']
  else if c = '\\' then ['\\', '\\']
  else if c = '\n' then ['\\', 'n']
  else if c = '\t' then ['\\', 't']
  else if c = '\r' then ['\\', 'r']
  else if c = '\x08' then ['\\', 'b']
  else if c = '\x0c' then ['\\', 'f']
  else if c.toNat < 32 then
    ['\\', 'u', '0', '0', hexDigit (c.toNat / 16), hexDigit (c.toNat % 16)]
  else [c]

/-- A JSON string literal with its quotes. -/
def json_quote (s : String) : String :=
  String.mk ('"' :: s.data.foldr (fun c acc => json_escape_char c ++ acc) ['"'])

mutual
/-- Python `json.dumps(·, ensure_ascii=False)` on the modelled values, with
the default `", "` and `": "` separators. -/
def jsonDumps : Json → String
  | .str s => json_quote s
  | .arr js => "[" ++ jsonDumpsList js ++ "]"
  | .obj kvs => "\x7b" ++ jsonDumpsObj kvs ++ "\x7d"

/-- Comma-joined array elements. -/
def jsonDumpsList : List Json → String
  | [] => ""
  | [j] => jsonDumps j
  | j :: j' :: rest => jsonDumps j ++ ", " ++ jsonDumpsList (j' :: rest)

/-- Comma-joined `"key": value` object entries. -/
def jsonDumpsObj : List (String × Json) → String
  | [] => ""
  | [kv] => json_quote kv.1 ++ ": " ++ jsonDumps kv.2
  | kv :: kv' :: rest => json_quote kv.1 ++ ": " ++ jsonDumps kv.2 ++ ", " ++ jsonDumpsObj (kv' :: rest)
end

/-- Python dict access `person[k]` on a decoded JSON object; `none` models
`KeyError`. -/
def jget (kvs : List (String × Json)) (k : String) : Option Json :=
  (kvs.find? (fun kv => kv.1 == k)).map (·.2)

/-- Read one decoded JSON object back as an attendee, as the edit form and
the signature-sheet builder read `person['이름']`, `person['학과']`,
`person['직급']` from the decoded array. -/
def json_to_attendee : Json → Option Attendee
  | .obj kvs =>
    match jget kvs "이름", jget kvs "학과", jget kvs "직급" with
    | some (.str nm), some (.str dp), some (.str rk) => some ⟨nm, dp, rk⟩
    | _, _, _ => none
  | _ => none

/-- The JSON object written for one attendee
(`{"이름": nm, "학과": dp, "직급": rk}`). -/
def attendee_to_json (a : Attendee) : Json :=
  .obj [("이름", .str a.name), ("학과", .str a.dept), ("직급", .str a.rank)]

/-- The JSON array stored in the `참석자_JSON` column. -/
def attendees_to_json (l : List Attendee) : Json := .arr (l.map attendee_to_json)

/-- Decode the stored JSON array back into an attendee list. -/
def json_to_attendees : Json → Option (List Attendee)
  | .arr js => js.mapM json_to_attendee
  | _ => none

theorem json_to_attendee_of_attendee (a : Attendee) :
    json_to_attendee (attendee_to_json a) = some a := by
  simp [json_to_attendee, attendee_to_json, jget, List.find?]

theorem json_roundtrip (l : List Attendee) :
    json_to_attendees (attendees_to_json l) = some l := by
  induction l with
  | nil => rfl
  | cons a t ih =>
    simp only [json_to_attendees, attendees_to_json, List.map_cons, List.mapM_cons,
      json_to_attendee_of_attendee] at ih ⊢
    rw [show (t.map attendee_to_json).mapM json_to_attendee = some t from ih]
    rfl

/-! ### Spreadsheet gateway -/

/-- A sheet row: the list of its cell strings. -/
abbrev Row := List String

/-- A worksheet as `gspread` sees it: the list of sheet rows, row 1 first.
Row 1 is the header row created by `get_worksheet`. -/
abbrev Worksheet := List Row

/-- Header of the `회의록` (Minutes) tab. -/
def MINUTES_HEADER : Row :=
  ["ID", "연번", "날짜", "시간", "장소", "주제", "참석자_텍스트", "참석자_JSON", "내용", "키워드"]

/-- Header of the `재직교수` (Faculty) tab. -/
def FACULTY_HEADER : Row := ["연번", "학과", "직급", "이름"]

/-- Model of `ws.append_row(row_data)` as performed by `save_row` (the
`cleaned_data` numeric normalization only changes the wire type of numeric
cells, not their value). -/
def save_row (g : Worksheet) (row_data : Row) : Worksheet := g ++ [row_data]

/-- Model of `ws.find(value, in_column=col)` followed by a whole-row range update
`A{row}:{chr(64+len)}{row}`: the first row (header included) whose cell in
1-based column `col` equals the needle has its first `new.length` cells
replaced.  Returns the success flag together with the resulting sheet. -/
def ws_update_in_col (col : Nat) (target : String) (new : Row) : Worksheet → Bool × Worksheet
  | [] => (false, [])
  | r :: rs =>
    if r.getD (col - 1) "" = target then (true, (new ++ r.drop new.length) :: rs)
    else
      let p := ws_update_in_col col target new rs
      (p.1, r :: p.2)

/-- Locate by the identifier in column 1, then overwrite
the row (the `(False, msg)` failure messages are dropped; any exception is
the `false` branch). -/
def update_row_by_id (g : Worksheet) (target_id : String) (new_data : Row) : Bool × Worksheet :=
  ws_update_in_col 1 target_id new_data g

/-- Locate by the date in column 3, then overwrite the
row. -/
def update_row_by_date (g : Worksheet) (target_date : String) (new_data : Row) : Bool × Worksheet :=
  ws_update_in_col 3 target_date new_data g

/-- Model of `ws.find(value)` with no column restriction followed by
`ws.delete_rows(cell.row)`: the first row, scanning the whole sheet in row
order (header row included), that contains a cell equal to the needle is
removed. -/
def ws_find_delete (target : String) : Worksheet → Bool × Worksheet
  | [] => (false, [])
  | r :: rs =>
    if target ∈ r then (true, rs)
    else
      let p := ws_find_delete target rs
      (p.1, r :: p.2)

/-- Model of `delete_row(tab_name, id_col_name, target_id)`: note that the source
never reads `id_col_name`; the needle is `str(target_id)` and the search is
cell-by-cell over the whole sheet.  `False` is returned (sheet unchanged)
when no cell matches or the lookup raises. -/
def delete_row (id_col_name : String) (target_id : String) (g : Worksheet) : Bool × Worksheet :=
  ws_find_delete target_id g

/-! ### Record mapper (`load_data`) -/

/-- A loaded DataFrame: its column names and its data rows. -/
structure Frame where
  cols : List String
  rows : List Row
deriving DecidableEq, Repr

/-- Model of `load_data(tab_name)`.  Here `ws` is the result of `get_worksheet` (`none`
when the connection failed), and `read_fails` models the `except:` branch
around `ws.get_all_records()` (an API/parse error).  `get_all_records`
keys the data rows by the header row, so the resulting frame's columns are
the header whenever there is at least one data row; `pd.DataFrame([])` has
no columns at all, and is reset to the canonical column set, as is any
Minutes frame whose columns lack `'ID'`. -/
def load_data (tab_name : String) (ws : Option Worksheet) (read_fails : Bool) : Frame :=
  let cols : List String :=
    if tab_name = "재직교수" then FACULTY_HEADER
    else if tab_name = "회의록" then MINUTES_HEADER
    else []
  match ws with
  | none => ⟨cols, []⟩
  | some g =>
    if read_fails then ⟨cols, []⟩
    else
      let data := g.tail
      let df : Frame := if data.isEmpty then ⟨[], []⟩ else ⟨g.headD [], data⟩
      let df : Frame := if df.rows.isEmpty ∨ df.cols.isEmpty then ⟨cols, []⟩ else df
      if tab_name = "회의록" ∧ "ID" ∉ df.cols then ⟨cols, []⟩
      else df

/-- Column access `row[col]` on a loaded frame (`df` iteration hands each
row to the handlers keyed by the frame's column names). -/
def frame_get (cols : List String) (r : Row) (c : String) : String :=
  r.getD (cols.indexOf c) ""

/-! ### Draft composer -/

/-- Model of `generate_ai_minutes(topic, keywords)`.  Here `openai_client` tells whether
the API client was configured; `call` stands for the external
chat-completion request built from the prompt template over topic and
keywords, returning either the drafted text or the raised error rendered
as a string.  Success is post-processed with `.replace("**", "").strip()`. -/
def generate_ai_minutes (openai_client : Bool) (topic keywords : String)
    (call : String → String → Except String String) : String :=
  if !openai_client then "OpenAI API Key 설정 필요"
  else
    match call topic keywords with
    | .ok content => pyStrip (py_replace content "**" "")
    | .error e => "AI 생성 오류: " ++ e

/-! ### Input tab: row construction and the save-step machine -/

/-- The save-step wizard states held in `st.session_state['save_step']`. -/
inductive SaveStep where
  | input
  | check_dup
  | confirm
  | success
deriving DecidableEq, Repr

/-- The input-tab form fields at the moment `저장` is pressed.  Dates and
times are already rendered to their string forms (`%Y-%m-%d`, `%H:%M`);
`now_str` is `datetime.now().strftime("%Y%m%d%H%M%S")`, the generated
identifier. -/
structure InputForm where
  d_in : String
  t_s : String
  t_e : String
  p_in : String
  tp_in : String
  sel_fac : List String
  mc : Bool
  mn : String
  md : String
  mr : String
  final_content : String
  ki : String
  now_str : String
deriving DecidableEq, Repr

/-- The emptiness check `is_empty = (not sel_fac) and (not (mc and mn))`. -/
def is_empty_att (f : InputForm) : Bool :=
  f.sel_fac.isEmpty && !(f.mc && f.mn ≠ "")

/-- The candidate row built by the input tab before the duplicate check:
`[now, nxt, date_str, time, place, topic, ", ".join(att_t),
json.dumps(att_s), cur, ki]` with `nxt = len(df) + 1 if not df.empty else 1`. -/
def build_row (df_len : Nat) (f : InputForm) : Row :=
  let p := build_attendees f.sel_fac f.mc f.mn f.md f.mr
  let nxt : Nat := if df_len ≠ 0 then df_len + 1 else 1
  [f.now_str, toString nxt, f.d_in,
   f.t_s ++ " ~ " ++ f.t_e, f.p_in, f.tp_in,
   String.intercalate ", " p.2, jsonDumps (attendees_to_json p.1),
   f.final_content, f.ki]

/-- Pressing `저장` in step `input`: validate, build the candidate row,
store it in `temp_data` and move to `check_dup` when some loaded record
already carries the same date string, else to `confirm`.  `none` is the
validation error (`모든 항목을 입력하세요`), which stays in step `input`. -/
def submit (g : Worksheet) (f : InputForm) (read_fails : Bool) : Option (Row × SaveStep) :=
  if pyStrip f.tp_in = "" ∨ pyStrip f.p_in = "" ∨ pyStrip f.final_content = ""
      ∨ is_empty_att f then
    none
  else
    let df := load_data "회의록" (some g) read_fails
    let row := build_row df.rows.length f
    let is_dup := ¬ df.rows.isEmpty ∧ f.d_in ∈ df.rows.map (fun r => frame_get df.cols r "날짜")
    some (row, if is_dup then SaveStep.check_dup else SaveStep.confirm)

/-- Pressing `덮어쓰기` in step `check_dup`:
`update_row_by_date("회의록", temp_data[2], temp_data)`. -/
def choose_overwrite (g : Worksheet) (temp : Row) : Worksheet :=
  (update_row_by_date g (temp.getD 2 "") temp).2

/-- Pressing `새로 추가` in step `check_dup`: `save_row("회의록", temp_data)`. -/
def choose_append (g : Worksheet) (temp : Row) : Worksheet := save_row g temp

/-- Pressing `네` in step `confirm`: `save_row("회의록", temp_data)`. -/
def confirm_yes (g : Worksheet) (temp : Row) : Worksheet := save_row g temp

/-! ### Edit form (`render_meeting_edit_form`) -/

/-- The edit-form fields at the moment `수정 내용 저장` is pressed. -/
structure EditInput where
  e_date : String
  e_start : String
  e_end : String
  e_place : String
  e_topic : String
  e_sel_fac : List String
  e_add_man : Bool
  e_nm : String
  e_dp : String
  e_rk : String
  e_content : String
deriving DecidableEq, Repr

/-- The `updated_row` written by the edit form.  `target_row` is the stored
record being edited, read positionally through the canonical Minutes
columns (`ID`=0, `연번`=1, …, `참석자_텍스트`=6, `참석자_JSON`=7,
`키워드`=9).  When no attendee was parsed and no manual entry included
(`if not att_struct`), the previous `참석자_JSON`/`참석자_텍스트` cells are
carried over unchanged. -/
def edit_updated_row (target_row : Row) (e : EditInput) : Row :=
  let p := build_attendees e.e_sel_fac e.e_add_man e.e_nm e.e_dp e.e_rk
  let final_json : String :=
    if p.1.isEmpty then target_row.getD 7 "" else jsonDumps (attendees_to_json p.1)
  let final_txt : String :=
    if p.1.isEmpty then target_row.getD 6 "" else String.intercalate ", " p.2
  [target_row.getD 0 "", target_row.getD 1 "", e.e_date,
   e.e_start ++ " ~ " ++ e.e_end, e.e_place, e.e_topic,
   final_txt, final_json, e.e_content, target_row.getD 9 ""]

/-- Saving the edit: `update_row_by_id("회의록", target_row['ID'], updated_row)`. -/
def edit_save (g : Worksheet) (target_row : Row) (e : EditInput) : Bool × Worksheet :=
  update_row_by_id g (target_row.getD 0 "") (edit_updated_row target_row e)

/-! ### Claim theorems -/

/-- C9: for every failure of the external text-generation call — credential
not configured, or the call raising any error — `generate_ai_minutes`
returns a human-readable error string (the fixed placeholder
`"OpenAI API Key 설정 필요"` when no credential is configured, and
`"AI 생성 오류: " ++ e` when the call raises `e`) rather than raising, so the
save path can proceed with manually typed content. -/
theorem C9_ai_error_string (topic keywords e : String)
    (call : String → String → Except String String) :
    generate_ai_minutes false topic keywords call = "OpenAI API Key 설정 필요" ∧
    generate_ai_minutes true topic keywords (fun _ _ => Except.error e)
      = "AI 생성 오류: " ++ e :=
  ⟨rfl, rfl⟩

/-- C6: a malformed label anywhere in a batch of selector labels is skipped
without affecting the attendees parsed from the rest of the batch: the
parse of the batch equals the parse of the batch with the malformed label
removed. -/
theorem C6_malformed_skip (pre post : List String) (bad : String)
    (hbad : parse_label bad = none) :
    parse_labels (pre ++ bad :: post) = parse_labels (pre ++ post) := by
  simp [parse_labels, List.filterMap_append, List.filterMap_cons, hbad]

/-- Witness for C6: a label without the `" (Dept/Rank)"` structure parses to
`none` and drops out of a concrete batch. -/
theorem C6_witness :
    parse_label "홍길동" = none ∧
    parse_labels ["김철수 (국문과/교수)", "홍길동", "이영희 (수학과/부교수)"]
      = parse_labels ["김철수 (국문과/교수)", "이영희 (수학과/부교수)"] :=
  ⟨by decide,
   C6_malformed_skip ["김철수 (국문과/교수)"] ["이영희 (수학과/부교수)"] "홍길동" (by decide)⟩

/-- C3: when an edit submission parses zero attendees (empty selection and
no manual entry included), the written row carries the attendee display
text (column 7, index 6) and attendee JSON (column 8, index 7) unchanged
from the stored record. -/
theorem C3_edit_empty_guard (target_row : Row) (e : EditInput)
    (h : (build_attendees e.e_sel_fac e.e_add_man e.e_nm e.e_dp e.e_rk).1 = []) :
    (edit_updated_row target_row e).getD 6 "" = target_row.getD 6 "" ∧
    (edit_updated_row target_row e).getD 7 "" = target_row.getD 7 "" := by
  have hji : (build_attendees e.e_sel_fac e.e_add_man e.e_nm e.e_dp e.e_rk).1.isEmpty = true := by
    rw [h]; rfl
  unfold edit_updated_row
  simp only [hji, if_true]
  exact ⟨rfl, rfl⟩

/-- Witness for C3: a concrete edit with cleared selector and no manual
entry retains the stored attendee cells. -/
theorem C3_witness :
    (build_attendees [] false "" "" "").1 = [] ∧
    ((edit_updated_row
        ["20240101120000", "1", "2024-01-01", "12:00 ~ 13:00", "본관", "주제",
         "김철수(국문과)", "원본JSON", "내용", "키워드"]
        ⟨"2024-01-05", "12:00", "13:00", "분관", "새주제", [], false, "", "", "", "새내용"⟩).getD 6 ""
      = "김철수(국문과)" ∧
     (edit_updated_row
        ["20240101120000", "1", "2024-01-01", "12:00 ~ 13:00", "본관", "주제",
         "김철수(국문과)", "원본JSON", "내용", "키워드"]
        ⟨"2024-01-05", "12:00", "13:00", "분관", "새주제", [], false, "", "", "", "새내용"⟩).getD 7 ""
      = "원본JSON") :=
  ⟨by decide,
   C3_edit_empty_guard
     ["20240101120000", "1", "2024-01-01", "12:00 ~ 13:00", "본관", "주제",
      "김철수(국문과)", "원본JSON", "내용", "키워드"]
     ⟨"2024-01-05", "12:00", "13:00", "분관", "새주제", [], false, "", "", "", "새내용"⟩
     (by decide)⟩

/-- C10: `delete_row` never reads its `id_col_name` argument; it removes the
first row — scanning the whole sheet in row order — holding any cell equal
to `str(target_id)`, so on a sheet where that value occurs first in a
non-key column the wrong row is deleted (here the first data row, whose
`내용` cell holds the other record's identifier, instead of the second data
row keyed by it); and when no cell matches it returns `False` and leaves
the sheet unchanged. -/
theorem C10_delete_by_value :
    (∀ (c₁ c₂ target : String) (g : Worksheet),
        delete_row c₁ target g = delete_row c₂ target g) ∧
    delete_row "ID" "20240202130000"
        [MINUTES_HEADER,
         ["20240101120000", "1", "2024-01-01", "12:00 ~ 13:00", "본관", "주제A",
          "김철수(국문과)", "[]", "20240202130000", ""],
         ["20240202130000", "2", "2024-02-02", "13:00 ~ 14:00", "본관", "주제B",
          "김철수(국문과)", "[]", "내용", ""]]
      = (true,
         [MINUTES_HEADER,
          ["20240202130000", "2", "2024-02-02", "13:00 ~ 14:00", "본관", "주제B",
           "김철수(국문과)", "[]", "내용", ""]]) ∧
    (∀ (c target : String) (g : Worksheet),
        (∀ r ∈ g, target ∉ r) → delete_row c target g = (false, g)) := by
  refine ⟨fun _ _ _ _ => rfl, by decide, ?_⟩
  intro c target g hmem
  induction g with
  | nil => rfl
  | cons r rs ih =>
    show ws_find_delete target (r :: rs) = (false, r :: rs)
    unfold ws_find_delete
    rw [if_neg (hmem r (by simp))]
    have hrec : ws_find_delete target rs = (false, rs) :=
      ih (fun r' hr' => hmem r' (by simp [hr']))
    rw [hrec]

/-- Witness for C10: applying the no-match clause at a concrete sheet. -/
theorem C10_witness :
    (∀ r ∈ [MINUTES_HEADER], "99999999999999" ∉ r) ∧
    delete_row "ID" "99999999999999" [MINUTES_HEADER] = (false, [MINUTES_HEADER]) :=
  ⟨by decide, C10_delete_by_value.2.2 "ID" "99999999999999" [MINUTES_HEADER] (by decide)⟩

/-- C8: a Minutes-tab read degrades to the empty table with the canonical
Minutes column set whenever the store connection failed, the read raised,
the store returned no data rows, or the returned header lacks the expected
`'ID'` identifier column (which covers a column-less result). -/
theorem C8_load_degrades :
    (∀ rf : Bool, load_data "회의록" none rf = ⟨MINUTES_HEADER, []⟩) ∧
    (∀ g : Worksheet, load_data "회의록" (some g) true = ⟨MINUTES_HEADER, []⟩) ∧
    (∀ g : Worksheet, g.tail = [] → load_data "회의록" (some g) false = ⟨MINUTES_HEADER, []⟩) ∧
    (∀ g : Worksheet, "ID" ∉ g.headD [] →
        load_data "회의록" (some g) false = ⟨MINUTES_HEADER, []⟩) := by
  refine ⟨fun rf => by simp [load_data], fun g => by simp [load_data], ?_, ?_⟩
  · intro g htail
    simp [load_data, htail]
  · intro g hid
    have hm : "ID" ∈ MINUTES_HEADER := by decide
    match g with
    | [] => simp [load_data]
    | h :: rows =>
      have hid' : "ID" ∉ h := by simpa using hid
      by_cases hrows : rows = []
      · simp [load_data, hrows, hm]
      · by_cases hh : h = []
        · simp [load_data, hrows, hh, hm]
        · simp [load_data, hrows, hh, hm, hid']

/-- Witness for C8: a sheet whose header row lacks the `'ID'` column loads
as the empty canonical Minutes table. -/
theorem C8_witness :
    "ID" ∉ (([["이름", "날짜"], ["김철수", "2024-01-01"]] : Worksheet).headD []) ∧
    load_data "회의록" (some [["이름", "날짜"], ["김철수", "2024-01-01"]]) false
      = ⟨MINUTES_HEADER, []⟩ :=
  ⟨by decide, C8_load_degrades.2.2.2 [["이름", "날짜"], ["김철수", "2024-01-01"]] (by decide)⟩

/-- A stored minutes record used to exhibit the duplicate-date overwrite
replacing a stored identifier. -/
def c4_old_row : Row :=
  ["20240101120000", "1", "2024-03-10", "12:00 ~ 13:00", "본관", "주제A",
   "김철수(국문과)", "[]", "내용A", ""]

/-- A newer submission for the same date, carrying its own generated
identifier. -/
def c4_new_row : Row :=
  ["20240310150000", "2", "2024-03-10", "15:00 ~ 16:00", "본관", "주제B",
   "김철수(국문과)", "[]", "내용B", ""]

/-- C4 counterexample: the duplicate-date overwrite path
(`update_row_by_date`) does not locate the stored record by its identifier
— it matches on the date in column 3 — and it replaces the whole row, so
the sheet position that held the record created with identifier
`20240101120000` afterwards holds identifier `20240310150000`: the list of
stored identifiers is changed by an update operation. -/
theorem C4_counterexample :
    (update_row_by_date [MINUTES_HEADER, c4_old_row] "2024-03-10" c4_new_row).2
      = [MINUTES_HEADER, c4_new_row] ∧
    c4_old_row.getD 0 "" = "20240101120000" ∧
    c4_new_row.getD 0 "" = "20240310150000" ∧
    ((update_row_by_date [MINUTES_HEADER, c4_old_row] "2024-03-10" c4_new_row).2.map
        (fun r => r.getD 0 ""))
      ≠ ([MINUTES_HEADER, c4_old_row].map (fun r => r.getD 0 "")) :=
  ⟨by decide, rfl, rfl, by decide⟩

theorem ws_update_in_col_fst_preserves_ids (tid : String) (new : Row)
    (hnew : new.getD 0 "" = tid) :
    ∀ g : Worksheet,
      (ws_update_in_col 1 tid new g).2.map (fun r => r.getD 0 "")
        = g.map (fun r => r.getD 0 "") := by
  intro g
  induction g with
  | nil => rfl
  | cons r rs ih =>
    show (ws_update_in_col 1 tid new (r :: rs)).2.map (fun r => r.getD 0 "") = _
    unfold ws_update_in_col
    by_cases hr : r.getD (1 - 1) "" = tid
    · rw [if_pos hr]
      simp only [List.map_cons]
      congr 1
      cases new with
      | nil => simp
      | cons n0 nt =>
        have h0 : n0 = tid := by simpa using hnew
        have h1 : r.getD 0 "" = tid := by simpa using hr
        simpa [h0] using h1.symm
    · rw [if_neg hr]
      simp only [List.map_cons, ih]

/-- C4 amended: the identifier of a minutes record is preserved by the edit
path, which locates the record by its identifier in the key column and
writes back that same identifier, so an edit never changes any stored
identifier; a confirmed or duplicate-date append adds one row carrying its
own freshly generated identifier and leaves all existing identifiers
intact; and a delete only removes rows, leaving the remaining identifiers
as they were.  (The duplicate-date overwrite, by contrast, locates by date
and installs the new submission's identifier in place of the old one — see
the counterexample.) -/
theorem C4_identifier_amended :
    (∀ (g : Worksheet) (target_row : Row) (e : EditInput),
        (edit_save g target_row e).2.map (fun r => r.getD 0 "")
          = g.map (fun r => r.getD 0 "")) ∧
    (∀ (g : Worksheet) (df_len : Nat) (f : InputForm),
        (save_row g (build_row df_len f)).map (fun r => r.getD 0 "")
          = g.map (fun r => r.getD 0 "") ++ [f.now_str]) ∧
    (∀ (c target : String) (g : Worksheet),
        ((delete_row c target g).2.map (fun r => r.getD 0 "")).Sublist
          (g.map (fun r => r.getD 0 ""))) := by
  refine ⟨?_, ?_, ?_⟩
  · intro g target_row e
    exact ws_update_in_col_fst_preserves_ids (target_row.getD 0 "")
      (edit_updated_row target_row e) rfl g
  · intro g df_len f
    simp only [save_row, List.map_append, List.map_cons, List.map_nil]
    rfl
  · intro c target g
    show ((ws_find_delete target g).2.map (fun r => r.getD 0 "")).Sublist _
    induction g with
    | nil => exact List.Sublist.refl _
    | cons r rs ih =>
      unfold ws_find_delete
      by_cases hr : target ∈ r
      · rw [if_pos hr]
        exact List.sublist_cons_of_sublist _ (List.Sublist.refl _)
      · rw [if_neg hr]
        simp only [List.map_cons]
        exact List.Sublist.cons₂ _ ih

theorem build_attendees_snd (sel : List String) (mc : Bool) (mn md mr : String) :
    (build_attendees sel mc mn md mr).2
      = (build_attendees sel mc mn md mr).1.map att_txt_entry := by
  unfold build_attendees
  by_cases h : mc = true ∧ mn ≠ ""
  · rw [if_pos h]
    simp [List.map_filterMap]
  · rw [if_neg h]
    simp [List.map_filterMap]

/-- Consistency of the attendee display text with the attendee JSON column:
both are the codec's rendering of one common attendee list. -/
def consistent_pair (txt js : String) : Prop :=
  ∃ atts : List Attendee,
    js = jsonDumps (attendees_to_json atts) ∧
    txt = String.intercalate ", " (atts.map att_txt_entry)

/-- C5: every write path writes the attendee display text (index 6) and the
attendee JSON (index 7) together and consistently.  The input-tab row —
used by create, confirmed append and duplicate-date overwrite alike —
always carries a consistent pair derived from the parsed attendee list;
the edit row carries a consistent pair whenever the stored record did
(the nonempty case regenerates both from the newly parsed list, the empty
case carries both stored cells forward together). -/
theorem C5_text_json_consistency :
    (∀ (df_len : Nat) (f : InputForm),
        consistent_pair ((build_row df_len f).getD 6 "") ((build_row df_len f).getD 7 "")) ∧
    (∀ (target_row : Row) (e : EditInput),
        consistent_pair (target_row.getD 6 "") (target_row.getD 7 "") →
        consistent_pair ((edit_updated_row target_row e).getD 6 "")
          ((edit_updated_row target_row e).getD 7 "")) := by
  constructor
  · intro n f
    refine ⟨(build_attendees f.sel_fac f.mc f.mn f.md f.mr).1, rfl, ?_⟩
    show String.intercalate ", " (build_attendees f.sel_fac f.mc f.mn f.md f.mr).2
        = String.intercalate ", " ((build_attendees f.sel_fac f.mc f.mn f.md f.mr).1.map att_txt_entry)
    rw [build_attendees_snd]
  · intro tr e h
    by_cases hatt : (build_attendees e.e_sel_fac e.e_add_man e.e_nm e.e_dp e.e_rk).1.isEmpty = true
    · obtain ⟨atts, hj, ht⟩ := h
      refine ⟨atts, ?_, ?_⟩
      · show (if (build_attendees e.e_sel_fac e.e_add_man e.e_nm e.e_dp e.e_rk).1.isEmpty = true
            then tr.getD 7 ""
            else jsonDumps (attendees_to_json (build_attendees e.e_sel_fac e.e_add_man e.e_nm e.e_dp e.e_rk).1)) = _
        rw [if_pos hatt]
        exact hj
      · show (if (build_attendees e.e_sel_fac e.e_add_man e.e_nm e.e_dp e.e_rk).1.isEmpty = true
            then tr.getD 6 ""
            else String.intercalate ", " (build_attendees e.e_sel_fac e.e_add_man e.e_nm e.e_dp e.e_rk).2) = _
        rw [if_pos hatt]
        exact ht
    · refine ⟨(build_attendees e.e_sel_fac e.e_add_man e.e_nm e.e_dp e.e_rk).1, ?_, ?_⟩
      · show (if (build_attendees e.e_sel_fac e.e_add_man e.e_nm e.e_dp e.e_rk).1.isEmpty = true
            then tr.getD 7 ""
            else jsonDumps (attendees_to_json (build_attendees e.e_sel_fac e.e_add_man e.e_nm e.e_dp e.e_rk).1)) = _
        rw [if_neg hatt]
      · show (if (build_attendees e.e_sel_fac e.e_add_man e.e_nm e.e_dp e.e_rk).1.isEmpty = true
            then tr.getD 6 ""
            else String.intercalate ", " (build_attendees e.e_sel_fac e.e_add_man e.e_nm e.e_dp e.e_rk).2) = _
        rw [if_neg hatt, build_attendees_snd]

/-- Witness for C5: a concrete stored record with a consistent pair keeps a
consistent pair through an attendee-clearing edit. -/
theorem C5_witness :
    consistent_pair "김철수(국문과)"
      (jsonDumps (attendees_to_json [⟨"김철수", "국문과", "교수"⟩])) ∧
    consistent_pair
      ((edit_updated_row
          ["20240101120000", "1", "2024-01-01", "12:00 ~ 13:00", "본관", "주제",
           "김철수(국문과)", jsonDumps (attendees_to_json [⟨"김철수", "국문과", "교수"⟩]),
           "내용", "키워드"]
          ⟨"2024-01-05", "12:00", "13:00", "분관", "새주제", [], false, "", "", "", "새내용"⟩).getD 6 "")
      ((edit_updated_row
          ["20240101120000", "1", "2024-01-01", "12:00 ~ 13:00", "본관", "주제",
           "김철수(국문과)", jsonDumps (attendees_to_json [⟨"김철수", "국문과", "교수"⟩]),
           "내용", "키워드"]
          ⟨"2024-01-05", "12:00", "13:00", "분관", "새주제", [], false, "", "", "", "새내용"⟩).getD 7 "") :=
  ⟨⟨[⟨"김철수", "국문과", "교수"⟩], rfl, by decide⟩,
   C5_text_json_consistency.2
     ["20240101120000", "1", "2024-01-01", "12:00 ~ 13:00", "본관", "주제",
      "김철수(국문과)", jsonDumps (attendees_to_json [⟨"김철수", "국문과", "교수"⟩]),
      "내용", "키워드"]
     ⟨"2024-01-05", "12:00", "13:00", "분관", "새주제", [], false, "", "", "", "새내용"⟩
     ⟨[⟨"김철수", "국문과", "교수"⟩], rfl, by decide⟩⟩

theorem load_data_minutes (rows : List Row) :
    load_data "회의록" (some (MINUTES_HEADER :: rows)) false = ⟨MINUTES_HEADER, rows⟩ := by
  have hm : "ID" ∈ MINUTES_HEADER := by decide
  by_cases h : rows = []
  · subst h
    simp [load_data, hm]
  · simp [load_data, h, hm, MINUTES_HEADER]

theorem frame_get_date (r : Row) : frame_get MINUTES_HEADER r "날짜" = r.getD 2 "" := by
  have hidx : List.indexOf "날짜" MINUTES_HEADER = 2 := by decide
  simp [frame_get, hidx]

/-- C1: starting from a Minutes table holding exactly one record, with date
string `D`, a valid submission dated `D` reaches the duplicate-date step
with the new candidate row (all fields of the new submission, including a
freshly generated identifier); choosing `덮어쓰기` (overwrite) leaves
exactly that one new row in the table, while choosing `새로 추가` (append)
leaves two rows sharing date `D`: the old record unchanged followed by the
appended new row. -/
theorem C1_duplicate_date_policy (r0 : Row) (f : InputForm) (D : String)
    (hlen : r0.length = 10) (hdate : r0.getD 2 "" = D) (hD : D ≠ "날짜")
    (hfD : f.d_in = D)
    (hv1 : ¬ pyStrip f.tp_in = "") (hv2 : ¬ pyStrip f.p_in = "")
    (hv3 : ¬ pyStrip f.final_content = "") (hv4 : is_empty_att f = false) :
    submit (MINUTES_HEADER :: [r0]) f false = some (build_row 1 f, SaveStep.check_dup) ∧
    (build_row 1 f).getD 2 "" = D ∧
    choose_overwrite (MINUTES_HEADER :: [r0]) (build_row 1 f)
      = MINUTES_HEADER :: [build_row 1 f] ∧
    choose_append (MINUTES_HEADER :: [r0]) (build_row 1 f)
      = MINUTES_HEADER :: [r0, build_row 1 f] := by
  refine ⟨?_, hfD, ?_, rfl⟩
  · unfold submit
    rw [if_neg (by simp [hv1, hv2, hv3, hv4])]
    rw [load_data_minutes [r0]]
    have hdate' : r0[2]?.getD "" = D := by simpa [List.getD] using hdate
    simp [frame_get_date, hfD, hdate']
  · unfold choose_overwrite update_row_by_date
    have hg2 : (build_row 1 f).getD 2 "" = D := hfD
    rw [hg2]
    unfold ws_update_in_col
    rw [if_neg (by
      intro hcontra
      exact hD ((show MINUTES_HEADER.getD (3 - 1) "" = "날짜" from rfl) ▸ hcontra).symm)]
    unfold ws_update_in_col
    rw [if_pos hdate]
    have hdrop : r0.drop (build_row 1 f).length = [] := by
      rw [show (build_row 1 f).length = 10 from rfl, ← hlen, List.drop_length]
    rw [hdrop, List.append_nil]

/-- Witness for C1: a concrete one-record table and a concrete valid
submission with the same date. -/
theorem C1_witness :
    (["20240101120000", "1", "2024-03-10", "12:00 ~ 13:00", "본관", "주제A",
      "김철수(국문과)", "[]", "내용A", ""] : Row).length = 10 ∧
    (["20240101120000", "1", "2024-03-10", "12:00 ~ 13:00", "본관", "주제A",
      "김철수(국문과)", "[]", "내용A", ""] : Row).getD 2 "" = "2024-03-10" ∧
    ("2024-03-10" : String) ≠ "날짜" ∧
    is_empty_att ⟨"2024-03-10", "15:00", "16:00", "분관", "주제B",
      ["김철수 (국문과/교수)"], false, "", "", "", "내용B", "", "20240310150000"⟩ = false ∧
    submit (MINUTES_HEADER ::
        [["20240101120000", "1", "2024-03-10", "12:00 ~ 13:00", "본관", "주제A",
          "김철수(국문과)", "[]", "내용A", ""]])
      ⟨"2024-03-10", "15:00", "16:00", "분관", "주제B",
        ["김철수 (국문과/교수)"], false, "", "", "", "내용B", "", "20240310150000"⟩ false
      = some (build_row 1 ⟨"2024-03-10", "15:00", "16:00", "분관", "주제B",
          ["김철수 (국문과/교수)"], false, "", "", "", "내용B", "", "20240310150000"⟩,
        SaveStep.check_dup) ∧
    choose_overwrite (MINUTES_HEADER ::
        [["20240101120000", "1", "2024-03-10", "12:00 ~ 13:00", "본관", "주제A",
          "김철수(국문과)", "[]", "내용A", ""]])
      (build_row 1 ⟨"2024-03-10", "15:00", "16:00", "분관", "주제B",
        ["김철수 (국문과/교수)"], false, "", "", "", "내용B", "", "20240310150000"⟩)
      = MINUTES_HEADER :: [build_row 1 ⟨"2024-03-10", "15:00", "16:00", "분관", "주제B",
          ["김철수 (국문과/교수)"], false, "", "", "", "내용B", "", "20240310150000"⟩] ∧
    choose_append (MINUTES_HEADER ::
        [["20240101120000", "1", "2024-03-10", "12:00 ~ 13:00", "본관", "주제A",
          "김철수(국문과)", "[]", "내용A", ""]])
      (build_row 1 ⟨"2024-03-10", "15:00", "16:00", "분관", "주제B",
        ["김철수 (국문과/교수)"], false, "", "", "", "내용B", "", "20240310150000"⟩)
      = MINUTES_HEADER ::
        [["20240101120000", "1", "2024-03-10", "12:00 ~ 13:00", "본관", "주제A",
          "김철수(국문과)", "[]", "내용A", ""],
         build_row 1 ⟨"2024-03-10", "15:00", "16:00", "분관", "주제B",
          ["김철수 (국문과/교수)"], false, "", "", "", "내용B", "", "20240310150000"⟩] := by
  have h := C1_duplicate_date_policy
    ["20240101120000", "1", "2024-03-10", "12:00 ~ 13:00", "본관", "주제A",
     "김철수(국문과)", "[]", "내용A", ""]
    ⟨"2024-03-10", "15:00", "16:00", "분관", "주제B",
      ["김철수 (국문과/교수)"], false, "", "", "", "내용B", "", "20240310150000"⟩
    "2024-03-10" (by decide) (by decide) (by decide) rfl
    (by decide) (by decide) (by decide) (by decide)
  exact ⟨by decide, by decide, by decide, by decide, h.1, h.2.2.1, h.2.2.2⟩

/-- C7: when the submitted date string matches no stored record's date, a
valid submission reaches the single yes/no confirmation, and confirming
appends exactly one new row to the Minutes table: the sheet becomes the old
sheet plus the candidate row, whose identifier is the generated timestamp
string and whose sequence number is the loaded record count plus one (so 1
on an empty table). -/
theorem C7_append_new_date (rows : List Row) (f : InputForm)
    (hnd : f.d_in ∉ rows.map (fun r => r.getD 2 ""))
    (hv1 : ¬ pyStrip f.tp_in = "") (hv2 : ¬ pyStrip f.p_in = "")
    (hv3 : ¬ pyStrip f.final_content = "") (hv4 : is_empty_att f = false) :
    submit (MINUTES_HEADER :: rows) f false
      = some (build_row rows.length f, SaveStep.confirm) ∧
    confirm_yes (MINUTES_HEADER :: rows) (build_row rows.length f)
      = (MINUTES_HEADER :: rows) ++ [build_row rows.length f] ∧
    (build_row rows.length f).getD 0 "" = f.now_str ∧
    (build_row rows.length f).getD 1 "" = toString (rows.length + 1) := by
  refine ⟨?_, rfl, rfl, ?_⟩
  · unfold submit
    rw [if_neg (by simp [hv1, hv2, hv3, hv4])]
    rw [load_data_minutes rows]
    have hnd' : f.d_in ∉ rows.map (fun r => frame_get MINUTES_HEADER r "날짜") := by
      simpa [frame_get_date] using hnd
    simp [hnd']
  · show toString (if rows.length ≠ 0 then rows.length + 1 else 1) = toString (rows.length + 1)
    by_cases h : rows.length = 0
    · simp [h]
    · simp [h]

/-- Witness for C7: submitting to an empty Minutes table reaches the
confirmation step and appends the single new record with sequence number 1. -/
theorem C7_witness :
    ("2024-03-10" : String) ∉ ([] : List Row).map (fun r => r.getD 2 "") ∧
    submit (MINUTES_HEADER :: []) ⟨"2024-03-10", "12:00", "13:00", "본관", "주제",
        ["김철수 (국문과/교수)"], false, "", "", "", "내용", "키워드", "20240310120000"⟩ false
      = some (build_row 0 ⟨"2024-03-10", "12:00", "13:00", "본관", "주제",
          ["김철수 (국문과/교수)"], false, "", "", "", "내용", "키워드", "20240310120000"⟩,
        SaveStep.confirm) ∧
    confirm_yes (MINUTES_HEADER :: [])
        (build_row 0 ⟨"2024-03-10", "12:00", "13:00", "본관", "주제",
          ["김철수 (국문과/교수)"], false, "", "", "", "내용", "키워드", "20240310120000"⟩)
      = (MINUTES_HEADER :: []) ++
        [build_row 0 ⟨"2024-03-10", "12:00", "13:00", "본관", "주제",
          ["김철수 (국문과/교수)"], false, "", "", "", "내용", "키워드", "20240310120000"⟩] ∧
    (build_row 0 ⟨"2024-03-10", "12:00", "13:00", "본관", "주제",
        ["김철수 (국문과/교수)"], false, "", "", "", "내용", "키워드", "20240310120000"⟩).getD 1 ""
      = toString (1 : Nat) := by
  have h := C7_append_new_date [] ⟨"2024-03-10", "12:00", "13:00", "본관", "주제",
      ["김철수 (국문과/교수)"], false, "", "", "", "내용", "키워드", "20240310120000"⟩
    (by decide) (by decide) (by decide) (by decide) (by decide)
  exact ⟨by decide, h.1, h.2.1, h.2.2.2⟩

theorem parse_labels_map_mk (l : List Attendee) (hwf : ∀ a ∈ l, wf_attendee a = true) :
    parse_labels (l.map mk_label) = l := by
  induction l with
  | nil => rfl
  | cons a t ih =>
    have ha := parse_label_mk_label a (hwf a (by simp))
    have ht := ih (fun b hb => hwf b (by simp [hb]))
    simp only [parse_labels, List.map_cons, List.filterMap_cons, ha]
    simp only [parse_labels] at ht
    rw [ht]

/-- C2: for every non-empty list of well-formed attendee selections, the
selector labels `Name (Dept/Rank)` parse back to exactly those attendees
(in order), and serializing that attendee list to the stored JSON array
and parsing the array back yields a structurally equal attendee list. -/
theorem C2_attendee_roundtrip (l : List Attendee) (hne : l ≠ [])
    (hwf : ∀ a ∈ l, wf_attendee a = true) :
    parse_labels (l.map mk_label) = l ∧
    json_to_attendees (attendees_to_json (parse_labels (l.map mk_label)))
      = some (parse_labels (l.map mk_label)) := by
  have hp := parse_labels_map_mk l hwf
  exact ⟨hp, json_roundtrip (parse_labels (l.map mk_label))⟩

/-- Witness for C2: a concrete two-attendee selection survives the label
and JSON round trips. -/
theorem C2_witness :
    ([⟨"김철수", "국문과", "교수"⟩, ⟨"이영희", "수학과", "부교수"⟩] : List Attendee) ≠ [] ∧
    (∀ a ∈ ([⟨"김철수", "국문과", "교수"⟩, ⟨"이영희", "수학과", "부교수"⟩] : List Attendee),
        wf_attendee a = true) ∧
    parse_labels (([⟨"김철수", "국문과", "교수"⟩, ⟨"이영희", "수학과", "부교수"⟩] :
          List Attendee).map mk_label)
      = [⟨"김철수", "국문과", "교수"⟩, ⟨"이영희", "수학과", "부교수"⟩] ∧
    json_to_attendees (attendees_to_json (parse_labels
        (([⟨"김철수", "국문과", "교수"⟩, ⟨"이영희", "수학과", "부교수"⟩] :
          List Attendee).map mk_label)))
      = some (parse_labels (([⟨"김철수", "국문과", "교수"⟩, ⟨"이영희", "수학과", "부교수"⟩] :
          List Attendee).map mk_label)) := by
  have h := C2_attendee_roundtrip
    [⟨"김철수", "국문과", "교수"⟩, ⟨"이영희", "수학과", "부교수"⟩]
    (by decide) (by decide)
  exact ⟨by decide, by decide, h.1, h.2⟩
